import Mathlib

/-!
# Verification of the product ETL pipeline (`dags/etl_pipeline.py`)

Shallow embedding of the four pipeline stages (`archive_raw_file`,
`extract_products`, `transform_products`, `load_products`) and proofs of the
specification claims about them.

Modelling choices:
* A parsed CSV is a `DataFrame`: a list of column names and a list of rows,
  each row a list of cells; a cell is `Option Value` (`none` = absent / NaN),
  a `Value` is a rational number or a string, matching the two dtypes the
  pipeline distinguishes (`select_dtypes(include='number')` vs `'object'`).
* The filesystem is a `FS` record: optional content of the raw file
  (`data/products.csv`), optional content of the transformed file
  (`data/transformed_products.csv`), and the archive directory as a list of
  (filename, content) entries.  File content is stored already parsed, so
  `pd.read_csv` is the identity on the stored `DataFrame`.
* `datetime.now()` is an explicit `DateTime` argument (civil time at second
  resolution plus a microsecond field that `strftime('%Y%m%d_%H%M%S')`
  ignores).
* All stage functions are total Lean functions; the source's only
  non-IO-failure paths on missing input are log-and-return, which the
  embedding renders as returning the unchanged state.
-/

namespace ETL

/-- A cell value: the pipeline distinguishes numeric cells from string cells
(`select_dtypes(include='number')` vs `select_dtypes(include='object')`). -/
inductive Value where
  | num (q : ℚ)
  | str (s : String)
deriving DecidableEq, Repr

/-- A record: one row of the table, one optional cell per column
(`none` models a missing value / NaN). -/
abbrev Row := List (Option Value)

/-- A parsed tabular file, as `pd.read_csv` produces it. -/
structure DataFrame where
  columns : List String
  rows : List Row
deriving DecidableEq, Repr

/-- `pd.DataFrame()`: the empty frame returned by `extract_products` when the
raw file is absent. -/
def DataFrame.empty : DataFrame := { columns := [], rows := [] }

/-- The filesystem state the pipeline reads and writes:
`raw` is the content at `RAW_FILE_PATH`, `transformed` the content at
`TRANSFORMED_FILE_PATH`, `archive` the files in `ARCHIVE_DIR`. -/
structure FS where
  raw : Option DataFrame
  transformed : Option DataFrame
  archive : List (String × DataFrame)
deriving DecidableEq, Repr

/-! ## Column-name normalization: `col.strip().lower().replace(' ', '_')` -/

/-- Python `str.strip()` on a list of characters: drop whitespace from both
ends. -/
def pyStrip (l : List Char) : List Char :=
  ((l.dropWhile Char.isWhitespace).reverse.dropWhile Char.isWhitespace).reverse

/-- Python `str.lower()` (ASCII range, as in the source's column names). -/
def pyLower (l : List Char) : List Char :=
  l.map Char.toLower

/-- The character map of Python `str.replace(' ', '_')`: replacing a
single-character pattern replaces each occurrence independently. -/
def spaceToUnderscore (c : Char) : Char :=
  if c = ' ' then '_' else c

/-- Python `str.replace(' ', '_')` on a list of characters. -/
def pyReplaceSpace (l : List Char) : List Char :=
  l.map spaceToUnderscore

/-- Line 70 of the source: `col.strip().lower().replace(' ', '_')`. -/
def normalizeCol (s : String) : String :=
  String.mk (pyReplaceSpace (pyLower (pyStrip s.data)))

/-- The normalization exactly as the spec writes it,
`strip(lower(name)).replace(" ", "_")` (lower before strip); proved equal to
the source's `normalizeCol` below. -/
def specNormalizeCol (s : String) : String :=
  String.mk (pyReplaceSpace (pyStrip (pyLower s.data)))

/-! ## The cleaning policy of `transform_products` -/

/-- Does this cell hold a string?  Decides a column's pandas dtype: a CSV
column is `object` iff some present cell is a string, otherwise numeric
(an all-absent column reads as float64, i.e. numeric). -/
def isStrCell : Option Value → Bool
  | some (Value.str _) => true
  | _ => false

/-- The cell of a row at column index `j` (`none` beyond the row's end). -/
def cellAt (r : Row) (j : Nat) : Option Value :=
  r.getD j none

/-- Column `j` is selected by `select_dtypes(include='number')`: no present
cell of the column is a string. -/
def colNumeric (rows : List Row) (j : Nat) : Bool :=
  rows.all (fun r => !isStrCell (cellAt r j))

/-- Column `j` is selected by `select_dtypes(include='object')`: some present
cell of the column is a string. -/
def colObject (rows : List Row) (j : Nat) : Bool :=
  rows.any (fun r => isStrCell (cellAt r j))

/-- `fillna` restricted to the columns selected by `p`, walking a row from
column index `j`: absent cells in selected columns become `v`. -/
def fillRowWith (p : Nat → Bool) (v : Value) : Nat → Row → Row
  | _, [] => []
  | j, c :: r => (if p j && c.isNone then some v else c) :: fillRowWith p v (j + 1) r

/-- `df.drop_duplicates()` keeping the first occurrence of each full row
(pandas compares complete rows, treating NaN as equal to NaN), with the rows
already kept accumulated in `seen`. -/
def dropDupGo (seen : List Row) : List Row → List Row
  | [] => []
  | r :: rs => if r ∈ seen then dropDupGo seen rs else r :: dropDupGo (r :: seen) rs

/-- Line 59: `df = df.drop_duplicates()`. -/
def drop_duplicates (rows : List Row) : List Row :=
  dropDupGo [] rows

/-- Cleaning step (1), line 59: drop fully-duplicate records. -/
def dropDuplicatesStep (df : DataFrame) : DataFrame :=
  { df with rows := drop_duplicates df.rows }

/-- Cleaning step (2), lines 62-63: `df[numeric_cols] = df[numeric_cols].fillna(0)`
with `numeric_cols = df.select_dtypes(include='number').columns`. -/
def fillNumericStep (df : DataFrame) : DataFrame :=
  { df with rows := df.rows.map (fillRowWith (colNumeric df.rows) (Value.num 0) 0) }

/-- Cleaning step (3), lines 66-67: `df[string_cols] = df[string_cols].fillna('Unknown')`
with `string_cols = df.select_dtypes(include='object').columns`. -/
def fillStringStep (df : DataFrame) : DataFrame :=
  { df with rows := df.rows.map (fillRowWith (colObject df.rows) (Value.str "Unknown") 0) }

/-- The row-level effect of cleaning step (2) on a row list. -/
def fillNumericRows (d : List Row) : List Row :=
  d.map (fillRowWith (colNumeric d) (Value.num 0) 0)

/-- The row-level effect of cleaning step (3) on a row list. -/
def fillStringRows (d : List Row) : List Row :=
  d.map (fillRowWith (colObject d) (Value.str "Unknown") 0)

/-- Cleaning step (4), line 70: normalize every column name. -/
def renameColumnsStep (df : DataFrame) : DataFrame :=
  { df with columns := df.columns.map normalizeCol }

/-- The full cleaning policy of `transform_products` (lines 55-76), steps
(1)-(4) in the source's order. -/
def transform_df (df : DataFrame) : DataFrame :=
  renameColumnsStep (fillStringStep (fillNumericStep (dropDuplicatesStep df)))

/-! ## The four stages over the filesystem state -/

/-- `extract_products` (lines 27-38): missing raw file yields an empty frame,
otherwise the parsed raw file. -/
def extract_products (fs : FS) : DataFrame :=
  match fs.raw with
  | none => DataFrame.empty
  | some df => df

/-- `transform_products` (lines 41-77): missing raw file logs and returns
(state unchanged); otherwise reads the raw file, cleans it and writes the
result to the transformed path, overwriting any prior content. -/
def transform_products (fs : FS) : FS :=
  match fs.raw with
  | none => fs
  | some df => { fs with transformed := some (transform_df df) }

/-- `load_products` (lines 80-90): reports the row count of the transformed
file, `none` when the file is absent (log-and-return).  It writes nothing. -/
def load_products (fs : FS) : Option Nat :=
  match fs.transformed with
  | none => none
  | some df => some df.rows.length

/-! ## Archiving and timestamped filenames -/

/-- One reading of `datetime.now()`: civil time; `micro` is the sub-second
part, which the archive filename format does not display. -/
structure DateTime where
  year : Nat
  month : Nat
  day : Nat
  hour : Nat
  minute : Nat
  second : Nat
  micro : Nat
deriving DecidableEq, Repr

/-- Field bounds every real `datetime.now()` reading satisfies; what the
fixed-width zero-padded rendering needs for injectivity. -/
def DateTime.valid (t : DateTime) : Prop :=
  t.year < 10000 ∧ t.month < 100 ∧ t.day < 100 ∧ t.hour < 100 ∧
    t.minute < 100 ∧ t.second < 100

instance : DecidablePred DateTime.valid := by
  intro t
  unfold DateTime.valid
  infer_instance

/-- Two readings fall in the same displayed second: all fields agree except
possibly the sub-second part. -/
def sameSecond (t₁ t₂ : DateTime) : Prop :=
  t₁.year = t₂.year ∧ t₁.month = t₂.month ∧ t₁.day = t₂.day ∧
    t₁.hour = t₂.hour ∧ t₁.minute = t₂.minute ∧ t₁.second = t₂.second

instance (t₁ t₂ : DateTime) : Decidable (sameSecond t₁ t₂) := by
  unfold sameSecond
  infer_instance

/-- Zero-padded two-digit rendering, as `strftime` pads `%m %d %H %M %S`. -/
def pad2 (n : Nat) : List Char :=
  [Nat.digitChar (n / 10), Nat.digitChar (n % 10)]

/-- Zero-padded four-digit rendering, as `strftime` pads `%Y`. -/
def pad4 (n : Nat) : List Char :=
  pad2 (n / 100) ++ pad2 (n % 100)

/-- `strftime('%Y%m%d_%H%M%S')`: the second-resolution stamp; the
microsecond field is not rendered. -/
def strftimeCompact (t : DateTime) : List Char :=
  pad4 t.year ++ pad2 t.month ++ pad2 t.day ++ ['_'] ++
    pad2 t.hour ++ pad2 t.minute ++ pad2 t.second

/-- Line 104: the archive filename `products_<YYYYMMDD_HHMMSS>.csv`. -/
def archiveName (t : DateTime) : String :=
  "products_" ++ String.mk (strftimeCompact t) ++ ".csv"

/-- `archive_raw_file` (lines 93-106): missing raw file warns and returns
(state unchanged); otherwise copies the raw file into the archive directory
under the timestamped name taken from `now`. -/
def archive_raw_file (now : DateTime) (fs : FS) : FS :=
  match fs.raw with
  | none => fs
  | some df => { fs with archive := (archiveName now, df) :: fs.archive }

/-! ## Concrete inputs used in scenario checks -/

/-- A raw file whose two rows differ only in an absent numeric cell:
`Price` column with one `0` row and one empty row. -/
def dfDupFill : DataFrame :=
  { columns := ["Price"], rows := [[some (Value.num 0)], [none]] }

/-- The spec's scenario input read literally as a record list with keys
`Name`, `Price`, `name`: the column set is the union of the keys, absent
keys read as absent cells. -/
def dfScenarioDicts : DataFrame :=
  { columns := ["Name", "Price", "name"],
    rows := [[some (Value.str " Widget "), some (Value.num (19/2)), none],
             [none, some (Value.num (19/2)), some (Value.str "Widget")],
             [some (Value.str "Gadget"), none, none]] }

/-- The spec's scenario input read as a two-column CSV with header
`Name,Price` (treating the stray lowercase `name` key as the header's
`Name`). -/
def dfScenarioCsv : DataFrame :=
  { columns := ["Name", "Price"],
    rows := [[some (Value.str " Widget "), some (Value.num (19/2))],
             [some (Value.str "Widget"), some (Value.num (19/2))],
             [some (Value.str "Gadget"), none]] }

/-- A raw file with no absent cells and one exact duplicate row. -/
def dfAllPresent : DataFrame :=
  { columns := ["Price"], rows := [[some (Value.num 1)], [some (Value.num 1)]] }

/-- A concrete filesystem state with a raw file present. -/
def fsWithRaw : FS :=
  { raw := some dfScenarioCsv, transformed := none, archive := [] }

/-- A concrete filesystem state with nothing present. -/
def fsEmpty : FS :=
  { raw := none, transformed := none, archive := [] }

/-- A concrete timestamp. -/
def dtA : DateTime :=
  { year := 2025, month := 12, day := 19, hour := 3, minute := 4, second := 5,
    micro := 0 }

/-- Two seconds after `dtA`. -/
def dtB : DateTime :=
  { year := 2025, month := 12, day := 19, hour := 3, minute := 4, second := 7,
    micro := 0 }

/-- Same displayed second as `dtA`, different sub-second part. -/
def dtA' : DateTime :=
  { year := 2025, month := 12, day := 19, hour := 3, minute := 4, second := 5,
    micro := 999999 }

/-! ## Deduplication lemmas -/

theorem mem_dropDupGo {r : Row} : ∀ (l : List Row) (seen : List Row),
    r ∈ dropDupGo seen l ↔ r ∈ l ∧ r ∉ seen := by
  intro l
  induction l with
  | nil => intro seen; simp [dropDupGo]
  | cons a l ih =>
    intro seen
    by_cases ha : a ∈ seen
    · rw [dropDupGo, if_pos ha, ih]
      constructor
      · rintro ⟨h1, h2⟩
        exact ⟨List.mem_cons_of_mem _ h1, h2⟩
      · rintro ⟨h1, h2⟩
        rcases List.mem_cons.mp h1 with h | h
        · exact absurd ha (h ▸ h2)
        · exact ⟨h, h2⟩
    · rw [dropDupGo, if_neg ha]
      rw [List.mem_cons, ih]
      constructor
      · rintro (rfl | ⟨h1, h2⟩)
        · exact ⟨List.mem_cons_self _ _, ha⟩
        · refine ⟨List.mem_cons_of_mem _ h1, fun hc => h2 (List.mem_cons_of_mem _ hc)⟩
      · rintro ⟨h1, h2⟩
        rcases List.mem_cons.mp h1 with rfl | h
        · exact Or.inl rfl
        · by_cases hra : r = a
          · exact Or.inl hra
          · exact Or.inr ⟨h, fun hc => by
              rcases List.mem_cons.mp hc with hc | hc
              · exact hra hc
              · exact h2 hc⟩

theorem mem_drop_duplicates {r : Row} {l : List Row} :
    r ∈ drop_duplicates l ↔ r ∈ l := by
  rw [drop_duplicates, mem_dropDupGo]
  simp

theorem nodup_dropDupGo : ∀ (l : List Row) (seen : List Row),
    (dropDupGo seen l).Nodup := by
  intro l
  induction l with
  | nil => intro seen; simp [dropDupGo]
  | cons a l ih =>
    intro seen
    by_cases ha : a ∈ seen
    · rw [dropDupGo, if_pos ha]; exact ih seen
    · rw [dropDupGo, if_neg ha]
      refine List.Nodup.cons ?_ (ih (a :: seen))
      intro hmem
      exact ((mem_dropDupGo l (a :: seen)).mp hmem).2 (List.mem_cons_self _ _)

theorem nodup_drop_duplicates (l : List Row) : (drop_duplicates l).Nodup :=
  nodup_dropDupGo l []

theorem length_dropDupGo_le : ∀ (l : List Row) (seen : List Row),
    (dropDupGo seen l).length ≤ l.length := by
  intro l
  induction l with
  | nil => intro seen; simp [dropDupGo]
  | cons a l ih =>
    intro seen
    by_cases ha : a ∈ seen
    · rw [dropDupGo, if_pos ha]
      exact Nat.le_succ_of_le (ih seen)
    · rw [dropDupGo, if_neg ha]
      simpa using ih (a :: seen)

theorem length_drop_duplicates_le (l : List Row) :
    (drop_duplicates l).length ≤ l.length :=
  length_dropDupGo_le l []

theorem drop_duplicates_eq_self {l : List Row} (h : l.Nodup) :
    drop_duplicates l = l := by
  rw [drop_duplicates]
  suffices hgen : ∀ (l : List Row) (seen : List Row), l.Nodup →
      (∀ x ∈ l, x ∉ seen) → dropDupGo seen l = l by
    exact hgen l [] h (by simp)
  intro l
  induction l with
  | nil => intro seen _ _; rfl
  | cons a l ih =>
    intro seen hnd hdisj
    rw [dropDupGo, if_neg (hdisj a (List.mem_cons_self _ _))]
    rw [ih (a :: seen) (List.Nodup.of_cons hnd)]
    intro x hx
    intro hc
    rcases List.mem_cons.mp hc with rfl | hc
    · exact (List.nodup_cons.mp hnd).1 hx
    · exact hdisj x (List.mem_cons_of_mem _ hx) hc

/-! ## Fill lemmas -/

theorem length_fillRowWith (p : Nat → Bool) (v : Value) :
    ∀ (j : Nat) (r : Row), (fillRowWith p v j r).length = r.length := by
  intro j r
  induction r generalizing j with
  | nil => rfl
  | cons c r ih => simp [fillRowWith, ih]

theorem cellAt_fillRowWith (p : Nat → Bool) (v : Value) :
    ∀ (r : Row) (j0 j : Nat), j < r.length →
      cellAt (fillRowWith p v j0 r) j =
        if p (j0 + j) && (cellAt r j).isNone then some v else cellAt r j := by
  intro r
  induction r with
  | nil => intro j0 j h; simp at h
  | cons c r ih =>
    intro j0 j h
    cases j with
    | zero => simp [fillRowWith, cellAt]
    | succ j =>
      have hj : j < r.length := by simpa using h
      have := ih (j0 + 1) j hj
      simp only [fillRowWith, cellAt, List.getD_cons_succ] at this ⊢
      rw [this]
      have harith : j0 + 1 + j = j0 + (j + 1) := by omega
      rw [harith]

theorem fillRowWith_eq_self (p : Nat → Bool) (v : Value) :
    ∀ (j : Nat) (r : Row), (∀ c ∈ r, c.isSome = true) →
      fillRowWith p v j r = r := by
  intro j r
  induction r generalizing j with
  | nil => intro _; rfl
  | cons c r ih =>
    intro h
    have hc : c.isSome = true := h c (List.mem_cons_self _ _)
    have hcn : c.isNone = false := by
      cases c with
      | none => simp at hc
      | some _ => rfl
    simp only [fillRowWith, hcn, Bool.and_false]
    rw [if_neg (by simp), ih (j + 1) (fun x hx => h x (List.mem_cons_of_mem _ hx))]

theorem map_eq_self_of_forall {α : Type} (f : α → α) (l : List α)
    (h : ∀ x ∈ l, f x = x) : l.map f = l := by
  induction l with
  | nil => rfl
  | cons a l ih =>
    rw [List.map_cons, h a (List.mem_cons_self _ _),
      ih (fun x hx => h x (List.mem_cons_of_mem _ hx))]

/-! ## Transform characterization lemmas -/

theorem transform_df_rows (df : DataFrame) :
    (transform_df df).rows =
      fillStringRows (fillNumericRows (drop_duplicates df.rows)) := rfl

theorem length_fillNumericRows (d : List Row) :
    (fillNumericRows d).length = d.length := List.length_map _ _

theorem length_fillStringRows (d : List Row) :
    (fillStringRows d).length = d.length := List.length_map _ _

theorem getD_map_rows (f : Row → Row) (l : List Row) (i : Nat) (hi : i < l.length) :
    (l.map f).getD i [] = f (l.getD i []) := by
  rw [List.getD_eq_getElem _ _ (by simpa using hi), List.getD_eq_getElem _ _ hi,
    List.getElem_map]

theorem transform_df_columns (df : DataFrame) :
    (transform_df df).columns = df.columns.map normalizeCol := rfl

theorem isStrCell_isNone {c : Option Value} (h : isStrCell c = true) :
    c.isNone = false := by
  cases c with
  | none => simp [isStrCell] at h
  | some _ => rfl

theorem isStrCell_lt_length {r : Row} {j : Nat} (h : isStrCell (cellAt r j) = true) :
    j < r.length := by
  by_contra hge
  have : cellAt r j = none := List.getD_eq_default _ _ (by omega)
  rw [this] at h
  simp [isStrCell] at h

theorem colNumeric_false_exists {rows : List Row} {j : Nat}
    (h : colNumeric rows j = false) :
    ∃ r ∈ rows, isStrCell (cellAt r j) = true := by
  rw [colNumeric] at h
  by_contra hc
  push_neg at hc
  have : rows.all (fun r => !isStrCell (cellAt r j)) = true := by
    rw [List.all_eq_true]
    intro r hr
    have := hc r hr
    simp only [Bool.not_eq_true] at this ⊢
    simp [this]
  rw [this] at h
  exact Bool.true_eq_false.mp h

theorem colObject_of_colNumeric_false {d : List Row} {j : Nat}
    (h : colNumeric d j = false) :
    colObject (fillNumericRows d) j = true := by
  obtain ⟨r, hr, hstr⟩ := colNumeric_false_exists h
  rw [colObject, List.any_eq_true]
  refine ⟨fillRowWith (colNumeric d) (Value.num 0) 0 r, List.mem_map_of_mem _ hr, ?_⟩
  have hj : j < r.length := isStrCell_lt_length hstr
  rw [cellAt_fillRowWith _ _ r 0 j hj, isStrCell_isNone hstr]
  simpa using hstr

theorem transform_cell (df : DataFrame) (i j : Nat)
    (hi : i < (drop_duplicates df.rows).length)
    (hj : j < ((drop_duplicates df.rows).getD i []).length) :
    cellAt ((transform_df df).rows.getD i []) j =
      match cellAt ((drop_duplicates df.rows).getD i []) j with
      | some v => some v
      | none =>
        if colNumeric (drop_duplicates df.rows) j then some (Value.num 0)
        else some (Value.str "Unknown") := by
  have hi2 : i < (fillNumericRows (drop_duplicates df.rows)).length := by
    rw [length_fillNumericRows]; exact hi
  have h3 : (transform_df df).rows.getD i [] =
      fillRowWith (colObject (fillNumericRows (drop_duplicates df.rows)))
        (Value.str "Unknown") 0
        ((fillNumericRows (drop_duplicates df.rows)).getD i []) := by
    rw [transform_df_rows, fillStringRows]
    exact getD_map_rows _ _ i hi2
  have h2 : (fillNumericRows (drop_duplicates df.rows)).getD i [] =
      fillRowWith (colNumeric (drop_duplicates df.rows)) (Value.num 0) 0
        ((drop_duplicates df.rows).getD i []) := by
    rw [fillNumericRows]
    exact getD_map_rows _ _ i hi
  have hj2 : j < ((fillNumericRows (drop_duplicates df.rows)).getD i []).length := by
    rw [h2, length_fillRowWith]; exact hj
  rw [h3, cellAt_fillRowWith _ _ _ 0 j hj2, h2, cellAt_fillRowWith _ _ _ 0 j hj]
  simp only [Nat.zero_add]
  cases hcell : cellAt ((drop_duplicates df.rows).getD i []) j with
  | some v => simp
  | none =>
    cases hnum : colNumeric (drop_duplicates df.rows) j with
    | true => simp
    | false => simp [colObject_of_colNumeric_false hnum]

theorem transform_df_length_rows (df : DataFrame) :
    (transform_df df).rows.length = (drop_duplicates df.rows).length := by
  rw [transform_df_rows, length_fillStringRows, length_fillNumericRows]

theorem transform_df_allSome (df : DataFrame) :
    ∀ r ∈ (transform_df df).rows, ∀ c ∈ r, c.isSome = true := by
  intro r hr c hc
  rw [List.mem_iff_getElem] at hr hc
  obtain ⟨i, hi, hri⟩ := hr
  obtain ⟨j, hj, hcj⟩ := hc
  have hid : i < (drop_duplicates df.rows).length := by
    rw [← transform_df_length_rows]; exact hi
  have hrg : (transform_df df).rows.getD i [] = r := by
    rw [List.getD_eq_getElem _ _ hi, hri]
  have e3 : (transform_df df).rows.getD i [] =
      fillRowWith (colObject (fillNumericRows (drop_duplicates df.rows)))
        (Value.str "Unknown") 0
        ((fillNumericRows (drop_duplicates df.rows)).getD i []) := by
    rw [transform_df_rows, fillStringRows]
    exact getD_map_rows _ _ i (by rw [length_fillNumericRows]; exact hid)
  have e2 : (fillNumericRows (drop_duplicates df.rows)).getD i [] =
      fillRowWith (colNumeric (drop_duplicates df.rows)) (Value.num 0) 0
        ((drop_duplicates df.rows).getD i []) := by
    rw [fillNumericRows]
    exact getD_map_rows _ _ i hid
  have hrlen : r.length = ((drop_duplicates df.rows).getD i []).length := by
    rw [← hrg, e3, length_fillRowWith, e2, length_fillRowWith]
  have hjd : j < ((drop_duplicates df.rows).getD i []).length := by
    rw [← hrlen]; exact hj
  have hcell := transform_cell df i j hid hjd
  rw [hrg] at hcell
  have hcc : cellAt r j = c := by
    rw [cellAt, List.getD_eq_getElem _ _ hj, hcj]
  rw [hcc] at hcell
  cases hdc : cellAt ((drop_duplicates df.rows).getD i []) j with
  | some v => rw [hdc] at hcell; simp [hcell]
  | none =>
    rw [hdc] at hcell
    cases hnum : colNumeric (drop_duplicates df.rows) j with
    | true => rw [hnum] at hcell; simp at hcell; simp [hcell]
    | false => rw [hnum] at hcell; simp at hcell; simp [hcell]

theorem transform_rows_of_allSome (X : DataFrame)
    (h : ∀ r ∈ X.rows, ∀ c ∈ r, c.isSome = true) :
    (transform_df X).rows = drop_duplicates X.rows := by
  have hd : ∀ r ∈ drop_duplicates X.rows, ∀ c ∈ r, c.isSome = true :=
    fun r hr => h r (mem_drop_duplicates.mp hr)
  have h1 : fillNumericRows (drop_duplicates X.rows) = drop_duplicates X.rows := by
    rw [fillNumericRows]
    exact map_eq_self_of_forall _ _ (fun r hr => fillRowWith_eq_self _ _ 0 r (hd r hr))
  have h2 : fillStringRows (drop_duplicates X.rows) = drop_duplicates X.rows := by
    rw [fillStringRows]
    exact map_eq_self_of_forall _ _ (fun r hr => fillRowWith_eq_self _ _ 0 r (hd r hr))
  rw [transform_df_rows, h1, h2]

/-! ## Character-level lemmas for column-name normalization -/

theorem char_toNat_ofNat_valid (n : Nat) (h : n.isValidChar) :
    (Char.ofNat n).toNat = n := by
  simp [Char.ofNat, h, Char.ofNatAux, Char.toNat]
  rfl

theorem char_eq_of_toNat_eq {c d : Char} (h : c.toNat = d.toNat) : c = d :=
  Char.ext (UInt32.toNat.inj h)

theorem toLower_of_upper {c : Char} (h1 : 65 ≤ c.toNat) (h2 : c.toNat ≤ 90) :
    (Char.toLower c).toNat = c.toNat + 32 := by
  unfold Char.toLower
  rw [if_pos ⟨h1, h2⟩]
  exact char_toNat_ofNat_valid _ (Or.inl (by omega))

theorem toLower_of_not_upper {c : Char} (h : ¬(65 ≤ c.toNat ∧ c.toNat ≤ 90)) :
    Char.toLower c = c := by
  unfold Char.toLower
  rw [if_neg h]

theorem toLower_toLower (c : Char) : (Char.toLower c).toLower = Char.toLower c := by
  by_cases h : 65 ≤ c.toNat ∧ c.toNat ≤ 90
  · have ht := toLower_of_upper h.1 h.2
    apply toLower_of_not_upper
    omega
  · rw [toLower_of_not_upper h, toLower_of_not_upper h]

theorem isWhitespace_iff_toNat (c : Char) :
    c.isWhitespace = true ↔
      (c.toNat = 32 ∨ c.toNat = 9 ∨ c.toNat = 13 ∨ c.toNat = 10) := by
  constructor
  · intro h
    simp [Char.isWhitespace] at h
    rcases h with ((h | h) | h) | h <;> subst h <;> decide
  · intro h
    rcases h with h | h | h | h
    · have hc : c = ' ' := char_eq_of_toNat_eq (by rw [h]; decide)
      subst hc; decide
    · have hc : c = '\t' := char_eq_of_toNat_eq (by rw [h]; decide)
      subst hc; decide
    · have hc : c = '\r' := char_eq_of_toNat_eq (by rw [h]; decide)
      subst hc; decide
    · have hc : c = '\n' := char_eq_of_toNat_eq (by rw [h]; decide)
      subst hc; decide

theorem isWhitespace_toLower (c : Char) :
    (Char.toLower c).isWhitespace = c.isWhitespace := by
  by_cases h : 65 ≤ c.toNat ∧ c.toNat ≤ 90
  · have ht := toLower_of_upper h.1 h.2
    have h1 : c.isWhitespace = false := by
      cases hw : c.isWhitespace
      · rfl
      · rcases (isWhitespace_iff_toNat c).mp hw with h2 | h2 | h2 | h2 <;> omega
    have h2 : (Char.toLower c).isWhitespace = false := by
      cases hw : (Char.toLower c).isWhitespace
      · rfl
      · rcases (isWhitespace_iff_toNat _).mp hw with h3 | h3 | h3 | h3 <;> omega
    rw [h1, h2]
  · rw [toLower_of_not_upper h]

theorem isWhitespace_spaceToUnderscore {c : Char} (h : c.isWhitespace = false) :
    (spaceToUnderscore c).isWhitespace = false := by
  unfold spaceToUnderscore
  by_cases hc : c = ' '
  · rw [if_pos hc]; decide
  · rw [if_neg hc]; exact h

theorem normChar_idem (c : Char) :
    spaceToUnderscore (Char.toLower (spaceToUnderscore (Char.toLower c))) =
      spaceToUnderscore (Char.toLower c) := by
  by_cases h : Char.toLower c = ' '
  · rw [h]
    decide
  · have h1 : spaceToUnderscore (Char.toLower c) = Char.toLower c := by
      unfold spaceToUnderscore
      rw [if_neg h]
    rw [h1, toLower_toLower, h1]

/-! ## Strip lemmas -/

theorem head?_dropWhile_false {p : Char → Bool} :
    ∀ (l : List Char) (a : Char), (l.dropWhile p).head? = some a → p a = false := by
  intro l
  induction l with
  | nil => intro a h; simp at h
  | cons b l ih =>
    intro a h
    rw [List.dropWhile_cons] at h
    by_cases hb : p b = true
    · rw [if_pos hb] at h
      exact ih a h
    · rw [if_neg hb] at h
      simp at h
      rw [← h]
      simpa using hb

theorem dropWhile_eq_self_of_head {p : Char → Bool} {l : List Char}
    (h : ∀ a, l.head? = some a → p a = false) : l.dropWhile p = l := by
  cases l with
  | nil => rfl
  | cons b l =>
    rw [List.dropWhile_cons, if_neg (by simp [h b rfl])]

theorem dropWhile_suffix_ex (p : Char → Bool) :
    ∀ (l : List Char), ∃ t, t ++ l.dropWhile p = l := by
  intro l
  induction l with
  | nil => exact ⟨[], rfl⟩
  | cons b l ih =>
    by_cases hb : p b = true
    · obtain ⟨t, ht⟩ := ih
      exact ⟨b :: t, by rw [List.dropWhile_cons, if_pos hb, List.cons_append, ht]⟩
    · exact ⟨[], by rw [List.dropWhile_cons, if_neg hb, List.nil_append]⟩

theorem head?_pyStrip {l : List Char} {a : Char} (h : (pyStrip l).head? = some a) :
    a.isWhitespace = false := by
  unfold pyStrip at h
  obtain ⟨t, ht⟩ :=
    dropWhile_suffix_ex Char.isWhitespace (l.dropWhile Char.isWhitespace).reverse
  have hrev :
      ((l.dropWhile Char.isWhitespace).reverse.dropWhile Char.isWhitespace).reverse
        ++ t.reverse = l.dropWhile Char.isWhitespace := by
    rw [← List.reverse_append, ht, List.reverse_reverse]
  have hmain : (l.dropWhile Char.isWhitespace).head? = some a := by
    rw [← hrev, List.head?_append, h]
    rfl
  exact head?_dropWhile_false l a hmain

theorem getLast?_pyStrip {l : List Char} {a : Char}
    (h : (pyStrip l).getLast? = some a) : a.isWhitespace = false := by
  unfold pyStrip at h
  rw [List.getLast?_reverse] at h
  exact head?_dropWhile_false _ a h

theorem pyStrip_eq_self {m : List Char}
    (h1 : ∀ a, m.head? = some a → a.isWhitespace = false)
    (h2 : ∀ a, m.getLast? = some a → a.isWhitespace = false) :
    pyStrip m = m := by
  unfold pyStrip
  rw [dropWhile_eq_self_of_head h1]
  rw [dropWhile_eq_self_of_head
    (fun a ha => h2 a (by rwa [List.head?_reverse] at ha))]
  exact List.reverse_reverse m

/-! ## Normalization lemmas -/

theorem pyReplace_pyLower (x : List Char) :
    pyReplaceSpace (pyLower x) = x.map (spaceToUnderscore ∘ Char.toLower) := by
  unfold pyReplaceSpace pyLower
  rw [List.map_map]

theorem normalizeCol_data (s : String) :
    (normalizeCol s).data =
      (pyStrip s.data).map (spaceToUnderscore ∘ Char.toLower) := by
  unfold normalizeCol
  rw [pyReplace_pyLower]

theorem normalizeCol_idem (s : String) :
    normalizeCol (normalizeCol s) = normalizeCol s := by
  apply String.ext
  rw [normalizeCol_data, normalizeCol_data]
  have hstrip :
      pyStrip ((pyStrip s.data).map (spaceToUnderscore ∘ Char.toLower)) =
        (pyStrip s.data).map (spaceToUnderscore ∘ Char.toLower) := by
    apply pyStrip_eq_self
    · intro a ha
      rw [List.head?_map] at ha
      cases hb : (pyStrip s.data).head? with
      | none => rw [hb] at ha; simp at ha
      | some b =>
        rw [hb] at ha
        simp at ha
        rw [← ha]
        exact isWhitespace_spaceToUnderscore
          (by rw [isWhitespace_toLower]; exact head?_pyStrip hb)
    · intro a ha
      rw [List.getLast?_map] at ha
      cases hb : (pyStrip s.data).getLast? with
      | none => rw [hb] at ha; simp at ha
      | some b =>
        rw [hb] at ha
        simp at ha
        rw [← ha]
        exact isWhitespace_spaceToUnderscore
          (by rw [isWhitespace_toLower]; exact getLast?_pyStrip hb)
  rw [hstrip, List.map_map]
  exact List.map_congr_left (fun a _ => normChar_idem a)

theorem pyStrip_pyLower (l : List Char) :
    pyStrip (pyLower l) = pyLower (pyStrip l) := by
  unfold pyStrip pyLower
  have hw : (Char.isWhitespace ∘ Char.toLower) = Char.isWhitespace :=
    funext isWhitespace_toLower
  rw [List.dropWhile_map, hw, ← List.map_reverse, List.dropWhile_map, hw,
    ← List.map_reverse]

theorem specNormalizeCol_eq (s : String) : specNormalizeCol s = normalizeCol s := by
  unfold specNormalizeCol normalizeCol
  rw [pyStrip_pyLower]

theorem fixpoint_of_mem_normalized {cols : List String} {name : String}
    (h : name ∈ cols.map normalizeCol) : name = specNormalizeCol name := by
  obtain ⟨c, _, hc⟩ := List.mem_map.mp h
  rw [specNormalizeCol_eq, ← hc, normalizeCol_idem]

/-! ## Timestamp-rendering lemmas -/

theorem digitChar_inj : ∀ a < 10, ∀ b < 10, Nat.digitChar a = Nat.digitChar b → a = b := by
  decide

theorem length_pad2 (n : Nat) : (pad2 n).length = 2 := rfl

theorem pad2_inj {a b : Nat} (ha : a < 100) (hb : b < 100) (h : pad2 a = pad2 b) :
    a = b := by
  unfold pad2 at h
  simp at h
  have e1 := digitChar_inj (a / 10) (by omega) (b / 10) (by omega) h.1
  have e2 := digitChar_inj (a % 10) (by omega) (b % 10) (by omega) h.2
  omega

theorem pad4_inj {a b : Nat} (ha : a < 10000) (hb : b < 10000) (h : pad4 a = pad4 b) :
    a = b := by
  unfold pad4 at h
  obtain ⟨h1, h2⟩ := List.append_inj h (by rw [length_pad2, length_pad2])
  have e1 := pad2_inj (by omega) (by omega) h1
  have e2 := pad2_inj (by omega) (by omega) h2
  omega

theorem strftimeCompact_inj {t1 t2 : DateTime} (hv1 : t1.valid) (hv2 : t2.valid)
    (h : strftimeCompact t1 = strftimeCompact t2) : sameSecond t1 t2 := by
  obtain ⟨hy1, hmo1, hd1, hh1, hmi1, hs1⟩ := hv1
  obtain ⟨hy2, hmo2, hd2, hh2, hmi2, hs2⟩ := hv2
  unfold strftimeCompact at h
  obtain ⟨h, hs⟩ := List.append_inj' h rfl
  obtain ⟨h, hmi⟩ := List.append_inj' h rfl
  obtain ⟨h, hh⟩ := List.append_inj' h rfl
  obtain ⟨h, _⟩ := List.append_inj' h rfl
  obtain ⟨h, hd⟩ := List.append_inj' h rfl
  obtain ⟨hy, hmo⟩ := List.append_inj' h rfl
  exact ⟨pad4_inj hy1 hy2 hy, pad2_inj hmo1 hmo2 hmo, pad2_inj hd1 hd2 hd,
    pad2_inj hh1 hh2 hh, pad2_inj hmi1 hmi2 hmi, pad2_inj hs1 hs2 hs⟩

theorem data_mk (l : List Char) : (String.mk l).data = l := rfl

theorem archiveName_eq_iff {t1 t2 : DateTime} (hv1 : t1.valid) (hv2 : t2.valid) :
    archiveName t1 = archiveName t2 ↔ sameSecond t1 t2 := by
  constructor
  · intro h
    have hd : (archiveName t1).data = (archiveName t2).data := by rw [h]
    unfold archiveName at hd
    rw [String.data_append, String.data_append, String.data_append,
      String.data_append, data_mk, data_mk, List.append_assoc,
      List.append_assoc] at hd
    have hcancel := List.append_cancel_left hd
    obtain ⟨hs, _⟩ := List.append_inj' hcancel rfl
    exact strftimeCompact_inj hv1 hv2 hs
  · intro h
    obtain ⟨e1, e2, e3, e4, e5, e6⟩ := h
    unfold archiveName strftimeCompact
    rw [e1, e2, e3, e4, e5, e6]

/-! ## Claim theorems -/

/-- C1: for every raw input file that exists at the raw path,
`transform_products` reads it and applies the cleaning policy in exactly this
order — (1) drop fully-duplicate records, (2) fill absent numeric cells with
0, (3) fill absent text cells with the literal "Unknown", (4) normalize every
column name — and writes the result to the cleaned-artifact path, overwriting
any prior output. -/
theorem claim_C1 (fs : FS) (df : DataFrame) (h : fs.raw = some df) :
    transform_products fs =
      { fs with
        transformed := some (renameColumnsStep (fillStringStep (fillNumericStep (dropDuplicatesStep df)))) } := by
  unfold transform_products
  rw [h]
  rfl

/-- Witness for C1 at a concrete filesystem state. -/
theorem claim_C1_witness :
    transform_products fsWithRaw =
      { fsWithRaw with
        transformed := some (renameColumnsStep (fillStringStep (fillNumericStep (dropDuplicatesStep dfScenarioCsv)))) } :=
  claim_C1 fsWithRaw dfScenarioCsv rfl

/-- C2 counterexample: the cleaned output of the raw input
`Price = [0, absent]` has two fully identical records, because duplicates are
dropped before missing values are filled. -/
theorem claim_C2_counterexample : ¬ (transform_df dfDupFill).rows.Nodup := by
  decide

/-- C2 (amended): immediately after the dedup step no two records are fully
identical; the cleaned output has this property whenever the raw input
contains no absent cells (filling absent cells can merge records that
differed only in absent-versus-sentinel cells). -/
theorem claim_C2_amended (df : DataFrame) :
    (drop_duplicates df.rows).Nodup ∧
      ((∀ r ∈ df.rows, ∀ c ∈ r, c.isSome = true) →
        (transform_df df).rows.Nodup) := by
  refine ⟨nodup_drop_duplicates df.rows, fun h => ?_⟩
  rw [transform_rows_of_allSome df h]
  exact nodup_drop_duplicates df.rows

/-- Witness for the amended C2 at a fully-present raw input. -/
theorem claim_C2_amended_witness :
    (drop_duplicates dfAllPresent.rows).Nodup ∧
      (transform_df dfAllPresent).rows.Nodup :=
  ⟨(claim_C2_amended dfAllPresent).1,
    (claim_C2_amended dfAllPresent).2 (by decide)⟩

/-- C3: every cell of the cleaned output is present, and a cell that was
absent after dedup is filled with 0 in a numeric column and with "Unknown" in
a text column, while present cells are unchanged. -/
theorem claim_C3 (df : DataFrame) :
    (∀ r ∈ (transform_df df).rows, ∀ c ∈ r, c.isSome = true) ∧
      (∀ i j, i < (drop_duplicates df.rows).length →
        j < ((drop_duplicates df.rows).getD i []).length →
        cellAt ((transform_df df).rows.getD i []) j =
          match cellAt ((drop_duplicates df.rows).getD i []) j with
          | some v => some v
          | none =>
            if colNumeric (drop_duplicates df.rows) j then some (Value.num 0)
            else some (Value.str "Unknown")) :=
  ⟨transform_df_allSome df, fun i j hi hj => transform_cell df i j hi hj⟩

/-- Witness for C3: the Gadget row's absent Price cell becomes 0. -/
theorem claim_C3_witness :
    (some (Value.num 0)).isSome = true ∧
      cellAt ((transform_df dfScenarioCsv).rows.getD 2 []) 1 =
        some (Value.num 0) := by
  constructor
  · exact (claim_C3 dfScenarioCsv).1
      [some (Value.str "Gadget"), some (Value.num 0)] (by decide)
      (some (Value.num 0)) (by decide)
  · exact ((claim_C3 dfScenarioCsv).2 2 1 (by decide) (by decide)).trans (by decide)

/-- C4: if no raw input file is present, `extract_products` returns an empty
record set and `transform_products` returns without writing any output
artifact; both are total functions, so neither raises. -/
theorem claim_C4 (fs : FS) (h : fs.raw = none) :
    extract_products fs = DataFrame.empty ∧ transform_products fs = fs := by
  unfold extract_products transform_products
  rw [h]
  exact ⟨rfl, rfl⟩

/-- Witness for C4 at the empty filesystem state. -/
theorem claim_C4_witness :
    extract_products fsEmpty = DataFrame.empty ∧
      transform_products fsEmpty = fsEmpty :=
  claim_C4 fsEmpty rfl

/-- C5: running the Transformer twice on the same raw input leaves the exact
same cleaned artifact (the second run overwrites it with an identical value),
and applying the transform to already-cleaned data is a no-op as a row set:
`transform (transform X)` has the same columns and the same row membership as
`transform X`. -/
theorem claim_C5 :
    (∀ fs : FS, transform_products (transform_products fs) = transform_products fs) ∧
      (∀ X : DataFrame,
        (transform_df (transform_df X)).columns = (transform_df X).columns ∧
          ∀ r : Row,
            r ∈ (transform_df (transform_df X)).rows ↔ r ∈ (transform_df X).rows) := by
  constructor
  · intro fs
    cases hraw : fs.raw with
    | none =>
      have h1 : transform_products fs = fs := by
        unfold transform_products
        rw [hraw]
      rw [h1, h1]
    | some df =>
      have h1 : transform_products fs =
          { fs with transformed := some (transform_df df) } := by
        unfold transform_products
        rw [hraw]
      have h2 : transform_products { fs with transformed := some (transform_df df) } =
          { fs with transformed := some (transform_df df) } := by
        unfold transform_products
        rw [show ({ fs with transformed := some (transform_df df) } : FS).raw
            = some df from hraw]
      rw [h1, h2]
  · intro X
    constructor
    · rw [transform_df_columns, transform_df_columns, List.map_map]
      exact List.map_congr_left (fun a _ => normalizeCol_idem a)
    · intro r
      rw [transform_rows_of_allSome (transform_df X) (transform_df_allSome X)]
      exact mem_drop_duplicates

/-- C6: every column name of the cleaned output is a fixpoint of the
normalization `strip(lower(name)).replace(" ", "_")`; the normalization is
idempotent under re-application; and column-name uniqueness after
normalization is not guaranteed (the literal scenario input yields the
duplicated column name "name"). -/
theorem claim_C6 :
    (∀ (df : DataFrame) (name : String), name ∈ (transform_df df).columns →
        name = specNormalizeCol name) ∧
      (∀ s : String, specNormalizeCol (specNormalizeCol s) = specNormalizeCol s) ∧
      ¬ (transform_df dfScenarioDicts).columns.Nodup := by
  refine ⟨?_, ?_, ?_⟩
  · intro df name h
    rw [transform_df_columns] at h
    exact fixpoint_of_mem_normalized h
  · intro s
    simp only [specNormalizeCol_eq]
    exact normalizeCol_idem s
  · decide

/-- Witness for C6 at a concrete output column name. -/
theorem claim_C6_witness : "name" = specNormalizeCol "name" :=
  claim_C6.1 dfScenarioCsv "name" (by decide)

/-- C7 counterexample: on the spec's scenario input the transform produces 3
rows, not 2 — under both readings of the input (the literal record list with
keys Name/Price/name, and the two-column CSV with header Name,Price) — since
the two Widget records are near-duplicates, not exact duplicates. -/
theorem claim_C7_counterexample :
    (transform_df dfScenarioDicts).rows.length ≠ 2 ∧
      (transform_df dfScenarioCsv).rows.length ≠ 2 := by
  decide

/-- C7 (amended): the scenario input transforms to 3 rows (no record is
dropped: the Widget rows differ in whitespace), the Gadget row's missing
Price becomes 0, and the column names normalize to `name`, `price` (with a
second colliding `name` under the literal record-list reading). -/
theorem claim_C7_amended :
    (transform_df dfScenarioCsv).rows.length = 3 ∧
      (transform_df dfScenarioCsv).columns = ["name", "price"] ∧
      (transform_df dfScenarioCsv).rows =
        [[some (Value.str " Widget "), some (Value.num (19/2))],
         [some (Value.str "Widget"), some (Value.num (19/2))],
         [some (Value.str "Gadget"), some (Value.num 0)]] ∧
      (transform_df dfScenarioDicts).columns = ["name", "price", "name"] ∧
      (transform_df dfScenarioDicts).rows.length = 3 := by
  refine ⟨by decide, by decide, by rfl, by decide, by decide⟩

/-- C8: a stage whose input file is absent (raw file for `archive_raw_file`,
cleaned file for `load_products`) returns normally with no state change and
no failure signal, so the missing-input condition is never surfaced to the
Runner. -/
theorem claim_C8 (fs : FS) (t : DateTime) :
    (fs.transformed = none → load_products fs = none) ∧
      (fs.raw = none → archive_raw_file t fs = fs) := by
  constructor
  · intro h
    unfold load_products
    rw [h]
  · intro h
    unfold archive_raw_file
    rw [h]

/-- Witness for C8 at the empty filesystem state. -/
theorem claim_C8_witness :
    load_products fsEmpty = none ∧ archive_raw_file dtA fsEmpty = fsEmpty :=
  ⟨(claim_C8 fsEmpty dtA).1 rfl, (claim_C8 fsEmpty dtA).2 rfl⟩

/-- C9: archive filenames embed the capture timestamp at second resolution
(`products_<YYYYMMDD_HHMMSS>.csv`): invocations in different displayed
seconds produce distinct filenames, invocations within the same second
produce the identical (colliding) filename, and two successive invocations
add both names to the archive directory. -/
theorem claim_C9 (t1 t2 : DateTime) (hv1 : t1.valid) (hv2 : t2.valid) :
    (¬ sameSecond t1 t2 → archiveName t1 ≠ archiveName t2) ∧
      (sameSecond t1 t2 → archiveName t1 = archiveName t2) ∧
      (∀ (fs : FS) (df : DataFrame), fs.raw = some df →
        (archive_raw_file t2 (archive_raw_file t1 fs)).archive.map Prod.fst =
          archiveName t2 :: archiveName t1 :: fs.archive.map Prod.fst) := by
  refine ⟨?_, ?_, ?_⟩
  · intro hne heq
    exact hne ((archiveName_eq_iff hv1 hv2).mp heq)
  · intro hsame
    exact (archiveName_eq_iff hv1 hv2).mpr hsame
  · intro fs df h
    have h1 : archive_raw_file t1 fs =
        { fs with archive := (archiveName t1, df) :: fs.archive } := by
      unfold archive_raw_file
      rw [h]
    rw [h1]
    have h2 : archive_raw_file t2
          { fs with archive := (archiveName t1, df) :: fs.archive } =
        { fs with archive :=
            (archiveName t2, df) :: (archiveName t1, df) :: fs.archive } := by
      unfold archive_raw_file
      rw [show ({ fs with archive := (archiveName t1, df) :: fs.archive } : FS).raw
          = some df from h]
    rw [h2]
    simp

/-- Witness for C9: two concrete timestamps two seconds apart give distinct
archive files, and a same-second pair differing only in microseconds gives
the identical filename. -/
theorem claim_C9_witness :
    archiveName dtA ≠ archiveName dtB ∧
      archiveName dtA = archiveName dtA' ∧
      (archive_raw_file dtB (archive_raw_file dtA fsWithRaw)).archive.map Prod.fst =
        [archiveName dtB, archiveName dtA] := by
  refine ⟨?_, ?_, ?_⟩
  · exact (claim_C9 dtA dtB (by decide) (by decide)).1 (by decide)
  · exact (claim_C9 dtA dtA' (by decide) (by decide)).2.1 (by decide)
  · have h := (claim_C9 dtA dtB (by decide) (by decide)).2.2 fsWithRaw
      dfScenarioCsv rfl
    simpa using h

/-- C10: the cleaned artifact never has more rows than the raw input:
deduplication only removes rows, and filling and renaming preserve the row
count. -/
theorem claim_C10 (df : DataFrame) :
    (transform_df df).rows.length ≤ df.rows.length := by
  rw [transform_df_length_rows]
  exact length_drop_duplicates_le df.rows

end ETL
